import Mathlib

/-!
Shallow embedding of the Radiolink GMR receive/accumulate/upload pipeline.

The embedding covers:
* `db.py` — the `procs` table and the operations `insert_proc`,
  `update_proc_status`, `update_proc_uploading_percentage`;
* `dicom_server.py` — the in-memory registries (`patient_queue`,
  `patient_files`, `patient_zip_files`), the operations `get_patient_by_id`,
  `append_to_zip`, `upload_patient_data`, the selection condition of
  `check_patient_updates`, and the C-STORE handler `handle_store`;
* `send_to_server.py` — `send_to_server`.

The mutable module state is gathered in a `SysState` record and every
operation is a function from state to state.  Filesystem contents are
modelled as the set (list) of paths present on disk.  I/O and network
effects whose outcome is decided outside the program (an exception while
writing the archive, the HTTP response of the remote endpoint) are passed
in as explicit oracle arguments.  Times are natural numbers counting
seconds (`datetime.now()` values); `timedelta(minutes=1)` is 60.
-/

set_option maxHeartbeats 1000000

namespace Radiolink

/-- A row of the `procs` table created by `create_db` in db.py
(`patient_id` is the key of the surrounding association list). -/
structure ProcRecord where
  patient_name : String
  images : Nat
  status : String
  uploading_percentage : Nat
deriving DecidableEq, Repr

/-- Association-list lookup, first match.  Models both a Python dict
lookup and `SELECT ... WHERE patient_id = ?` (first row). -/
def lookupA {α : Type} : List (String × α) → String → Option α
  | [], _ => none
  | e :: rest, k => if e.1 = k then some e.2 else lookupA rest k

/-- Update every entry with the given key.  Models
`UPDATE ... WHERE patient_id = ?` (which touches every matching row). -/
def updA {α : Type} (l : List (String × α)) (k : String) (f : α → α) : List (String × α) :=
  l.map (fun e => if e.1 = k then (e.1, f e.2) else e)

/-- Dict assignment `d[k] = v`: overwrite the entry if the key is present,
otherwise add it at the end. -/
def setA {α : Type} : List (String × α) → String → α → List (String × α)
  | [], k, v => [(k, v)]
  | e :: rest, k, v => if e.1 = k then (k, v) :: rest else e :: setA rest k v

/-- `insert_proc` from db.py: raises `ValueError` when the patient id or
name is empty; increments `images` when a row for the patient exists;
otherwise inserts a fresh row with `images = 1` and percentage 0. -/
def insert_proc (procs : List (String × ProcRecord)) (patient_id patient_name status : String) :
    Except String (List (String × ProcRecord)) :=
  if patient_id = "" ∨ patient_name = "" then
    Except.error "Patient ID and name are required"
  else
    match lookupA procs patient_id with
    | some _ => Except.ok (updA procs patient_id (fun r => { r with images := r.images + 1 }))
    | none => Except.ok (procs ++ [(patient_id,
        { patient_name := patient_name, images := 1, status := status,
          uploading_percentage := 0 })])

/-- `update_proc_status` from db.py (`UPDATE procs SET status = ?
WHERE patient_id = ?`; a no-op when no row matches). -/
def update_proc_status (procs : List (String × ProcRecord)) (patient_id status : String) :
    List (String × ProcRecord) :=
  updA procs patient_id (fun r => { r with status := status })

/-- `update_proc_uploading_percentage` from db.py. -/
def update_proc_uploading_percentage (procs : List (String × ProcRecord))
    (patient_id : String) (percentage : Nat) : List (String × ProcRecord) :=
  updA procs patient_id (fun r => { r with uploading_percentage := percentage })

/-- One entry of the `patient_queue` list in dicom_server.py: the dict
built in `handle_store`.  The clinical metadata fields are opaque strings
(the `getattr` defaults are folded into the field values by the caller);
`zip_file_path` starts absent and is assigned by `upload_patient_data`. -/
structure Patient where
  patient_id : String
  patient_name : String
  patient_sex : String
  patient_age : String
  patient_size : String
  patient_weight : String
  patient_position : String
  study_instance_uid : String
  study_id : String
  study_date : String
  study_time : String
  study_description : String
  modality : String
  image_type : String
  protocol_name : String
  technician_email : String
  images : Nat
  updated_at : Nat
  zip_file_path : Option String := none
deriving DecidableEq, Repr

/-- One entry of the `patient_zip_files` dict in dicom_server.py. -/
structure ZipInfo where
  path : String
  last_update : Nat
deriving DecidableEq, Repr

/-- The fields of an inbound C-STORE dataset that `handle_store` reads.
Every field is the string value `handle_store` would obtain (for the
optional attributes, the `getattr` default stands in when absent). -/
structure Dataset where
  patientID : String
  patientName : String
  patientSex : String
  patientAge : String
  patientSize : String
  patientWeight : String
  patientPosition : String
  studyInstanceUID : String
  studyID : String
  studyDate : String
  studyTime : String
  studyDescription : String
  modality : String
  imageType : String
  protocolName : String
  sopInstanceUID : String
deriving DecidableEq, Repr

/-- The complete mutable state: the module-level registries of
dicom_server.py, the `procs` table of db.py, and the on-disk files
(archive files and saved DICOM source files, as lists of paths). -/
structure SysState where
  procs : List (String × ProcRecord)
  patient_queue : List Patient
  patient_files : List (String × List String)
  patient_zip_files : List (String × ZipInfo)
  disk_zips : List String
  disk_files : List String
deriving DecidableEq, Repr

/-- The empty boot state (fresh database, empty registries, empty disk). -/
def initState : SysState :=
  { procs := [], patient_queue := [], patient_files := [],
    patient_zip_files := [], disk_zips := [], disk_files := [] }

/-- `get_patient_by_id` from dicom_server.py: linear scan of
`patient_queue`, first session whose `patient_id` matches. -/
def get_patient_by_id : List Patient → String → Option Patient
  | [], _ => none
  | p :: rest, patient_id =>
    if p.patient_id = patient_id then some p else get_patient_by_id rest patient_id

/-- Mutate (in place) the first queued session whose `patient_id`
matches — this is what a Python assignment through the dict object
returned by `get_patient_by_id` does. -/
def updateFirstSession : List Patient → String → (Patient → Patient) → List Patient
  | [], _, _ => []
  | p :: rest, patient_id, f =>
    if p.patient_id = patient_id then f p :: rest
    else p :: updateFirstSession rest patient_id f

/-- `patient_queue.remove(patient_data)` where `patient_data` is the dict
found by `get_patient_by_id`: Python removes the first list element equal
to it; every earlier element has a different `patient_id` and is therefore
unequal, so exactly the first session with this `patient_id` is removed. -/
def removeFirstSession : List Patient → String → List Patient
  | [], _ => []
  | p :: rest, patient_id =>
    if p.patient_id = patient_id then rest else p :: removeFirstSession rest patient_id

/-- The archive path `os.path.join("zip_files", f"{patient_id}.zip")`
computed in `append_to_zip`. -/
def zip_file_path_for (patient_id : String) : String :=
  "zip_files/" ++ patient_id ++ ".zip"

/-- `append_to_zip` from dicom_server.py.  `ioOk = false` models an I/O
error raised inside the `try` block at (or before) the point where the
source file would be removed; the `except` clause catches it, logs, and
sets the persisted status back to `"pending"`, leaving the zip tracking
dict, the source file and the registries untouched.  On success the file
is written into the per-patient archive, the source file is removed
(`os.remove`), and the tracking entry gets `last_update = now`. -/
def append_to_zip (s : SysState) (patient_id file_path : String) (now : Nat) (ioOk : Bool) :
    SysState :=
  if ioOk then
    { s with
      disk_zips :=
        if zip_file_path_for patient_id ∈ s.disk_zips then s.disk_zips
        else zip_file_path_for patient_id :: s.disk_zips,
      disk_files := s.disk_files.filter (fun p => decide (p ≠ file_path)),
      patient_zip_files :=
        setA s.patient_zip_files patient_id
          { path := zip_file_path_for patient_id, last_update := now } }
  else
    { s with procs := update_proc_status s.procs patient_id "pending" }

/-- The outcome of the `requests.post` call in send_to_server.py, as
decided by the environment: an HTTP response with a status code, a
timeout expiry (the call carries `timeout=30`), or another transport
error.  Timeout and transport errors are both
`requests.exceptions.RequestException`s. -/
inductive NetResult
  | response (code : Nat)
  | timeoutExpired
  | transportError
deriving DecidableEq, Repr

/-- `send_to_server` from send_to_server.py.  `response.raise_for_status()`
raises `HTTPError` (a `RequestException`) for status codes in 400..599,
which the `except` clause turns into `False`; a timeout or transport error
is caught the same way; otherwise the function returns `status == 200`. -/
def send_to_server (r : NetResult) : Bool :=
  match r with
  | .response code =>
    if 400 ≤ code ∧ code < 600 then false
    else decide (code = 200)
  | .timeoutExpired => false
  | .transportError => false

/-- The environment-decided outcome of one dispatch: either the network
call runs to a `NetResult` (and `send_to_server` returns a Bool), or a
local exception escapes the send call (for instance `open` on the archive
failing), landing in the `except` clause of `upload_patient_data`. -/
inductive UploadOutcome
  | net (r : NetResult)
  | localException
deriving DecidableEq, Repr

/-- `dispatch_fails o = true` exactly when the dispatch outcome `o` is a
failure in the sense of upload_patient_data (the send returned `False`,
or a local exception was raised). -/
def dispatch_fails (o : UploadOutcome) : Bool :=
  match o with
  | .net r => !send_to_server r
  | .localException => true

/-- `upload_patient_data` from dicom_server.py.  The early returns fire
when the session or the zip-tracking entry is missing.  Otherwise the
session dict gets `zip_file_path` assigned, status goes to
`"uploading"`/75, and the send is attempted.  On success (`send_to_server`
returned `True`): status `"uploaded"`/100, then — inside a
`with threading.Lock():` block — the session is removed from the queue,
the archive file is removed from disk, and the tracking entry is deleted.
On `False`: status back to `"pending"`/0.  A local exception lands in the
outer `except`, which also sets `"pending"`/0. -/
def upload_patient_data (s : SysState) (patient_id : String) (o : UploadOutcome) : SysState :=
  match get_patient_by_id s.patient_queue patient_id with
  | none => s
  | some _ =>
    match lookupA s.patient_zip_files patient_id with
    | none => s
    | some zip_info =>
      let q := updateFirstSession s.patient_queue patient_id
        (fun p => { p with zip_file_path := some zip_info.path })
      let procs1 := update_proc_uploading_percentage
        (update_proc_status s.procs patient_id "uploading") patient_id 75
      match o with
      | .localException =>
        { s with patient_queue := q,
                 procs := update_proc_uploading_percentage
                   (update_proc_status procs1 patient_id "pending") patient_id 0 }
      | .net r =>
        if send_to_server r then
          { s with
            patient_queue := removeFirstSession q patient_id,
            procs := update_proc_uploading_percentage
              (update_proc_status procs1 patient_id "uploaded") patient_id 100,
            disk_zips := s.disk_zips.filter (fun p => decide (p ≠ zip_info.path)),
            patient_zip_files := s.patient_zip_files.filter (fun e => decide (e.1 ≠ patient_id)) }
        else
          { s with patient_queue := q,
                   procs := update_proc_uploading_percentage
                     (update_proc_status procs1 patient_id "pending") patient_id 0 }

/-- The selection made by one iteration of `check_patient_updates`: the
patient ids whose tracking entry satisfies
`(current_time - last_update) > timedelta(minutes=1)`, i.e. strictly more
than 60 seconds of inactivity. -/
def idle_selected (patient_zip_files : List (String × ZipInfo)) (current_time : Nat) :
    List String :=
  (patient_zip_files.filter (fun e => decide (60 < current_time - e.2.last_update))).map
    (fun e => e.1)

/-- One tick of the `check_patient_updates` loop: snapshot
`list(patient_zip_files.items())`, and call `upload_patient_data` for each
entry past the idle threshold.  The per-patient dispatch outcomes are
supplied by the oracle. -/
def monitor_tick (s : SysState) (current_time : Nat) (oracle : String → UploadOutcome) :
    SysState :=
  (idle_selected s.patient_zip_files current_time).foldl
    (fun st patient_id => upload_patient_data st patient_id (oracle patient_id)) s

/-- Append a received file path to `patient_files[patient_id]`
(creating the list when the key is new), as `handle_store` does. -/
def addFile (l : List (String × List String)) (k : String) (path : String) :
    List (String × List String) :=
  match lookupA l k with
  | some _ => updA l k (fun fs => fs ++ [path])
  | none => l ++ [(k, [path])]

/-- The save path computed in `handle_store`:
`dicom_files/<PatientID>/<StudyInstanceUID>/<Modality>_<SOPInstanceUID>`. -/
def temp_file_path_for (ds : Dataset) : String :=
  "dicom_files/" ++ ds.patientID ++ "/" ++ ds.studyInstanceUID ++ "/"
    ++ ds.modality ++ "_" ++ ds.sopInstanceUID

/-- The final step of `handle_store`: look the patient up in the queue;
if a session exists, mutate it in place (`images += 1`, `updated_at`
refreshed), otherwise append a new session dict built from the dataset
(with the `getattr` defaults folded into the dataset fields). -/
def upsert_session (q : List Patient) (ds : Dataset) (now : Nat)
    (technician_email : String) : List Patient :=
  match get_patient_by_id q ds.patientID with
  | some _ =>
    updateFirstSession q ds.patientID
      (fun p => { p with images := p.images + 1, updated_at := now })
  | none =>
    q ++ [{
      patient_id := ds.patientID,
      patient_name := ds.patientName,
      patient_sex := ds.patientSex,
      patient_age := ds.patientAge,
      patient_size := ds.patientSize,
      patient_weight := ds.patientWeight,
      patient_position := ds.patientPosition,
      study_instance_uid := ds.studyInstanceUID,
      study_id := ds.studyID,
      study_date := ds.studyDate,
      study_time := ds.studyTime,
      study_description := ds.studyDescription,
      modality := ds.modality,
      image_type := ds.imageType,
      protocol_name := ds.protocolName,
      technician_email := technician_email,
      images := 1,
      updated_at := now }]

/-- `handle_store` from dicom_server.py.  The dataset is first saved to
disk (`ds.save_as`).  `saveValid = false` models the two verification
branches (re-read fails with `InvalidDicomError`, or the file is missing
or empty), which return `0xA702` with the written file left behind.
Then `insert_proc` runs; a `ValueError` (empty patient id or name)
propagates to the outer `except`, which returns `0xA702`.  Otherwise the
percentage is set to 0, the file is recorded in `patient_files` and
appended to the archive (`appendOk` is the append's I/O oracle; note
`append_to_zip` swallows its own errors), and the session is created
(`images = 1`) or mutated (`images += 1`, `updated_at` refreshed).
Returns the DICOM status code together with the new state. -/
def handle_store (s : SysState) (ds : Dataset) (now : Nat) (saveValid appendOk : Bool)
    (technician_email : String) : Nat × SysState :=
  let temp := temp_file_path_for ds
  let s1 := { s with disk_files := if temp ∈ s.disk_files then s.disk_files
                                   else temp :: s.disk_files }
  if saveValid = false then (0xA702, s1)
  else
    match insert_proc s1.procs ds.patientID ds.patientName "pending" with
    | Except.error _ => (0xA702, s1)
    | Except.ok procs1 =>
      let procs2 := update_proc_uploading_percentage procs1 ds.patientID 0
      let s2 := { s1 with procs := procs2,
                          patient_files := addFile s1.patient_files ds.patientID temp }
      let s3 := append_to_zip s2 ds.patientID temp now appendOk
      (0x0000, { s3 with
        patient_queue := upsert_session s3.patient_queue ds now technician_email })

/-- The observable pipeline events: a file arrival handled by
`handle_store`, or one tick of the quiescence monitor. -/
inductive Event
  | arrival (ds : Dataset) (now : Nat) (saveValid appendOk : Bool)
  | tick (now : Nat) (oracle : String → UploadOutcome)

/-- Apply one event to the state. -/
def stepEvent (technician_email : String) (s : SysState) : Event → SysState
  | .arrival ds now saveValid appendOk =>
    (handle_store s ds now saveValid appendOk technician_email).2
  | .tick now oracle => monitor_tick s now oracle

/-- Run a sequence of events from a starting state. -/
def runEvents (technician_email : String) (s : SysState) (es : List Event) : SysState :=
  es.foldl (stepEvent technician_email) s

/-- The persisted `images` count for a patient (0 when no row exists). -/
def numImages (s : SysState) (patient_id : String) : Nat :=
  match lookupA s.procs patient_id with
  | some r => r.images
  | none => 0

/-- Model of CPython `threading.Lock()`: every evaluation of the
expression allocates a fresh lock object, identified here by an
allocation id drawn from a counter.  `dicom_server.py` writes
`with threading.Lock():` — the constructor call is inside the `with`
statement, so each acquisition is of a brand-new lock. -/
def threading_Lock (next_id : Nat) : Nat × Nat := (next_id, next_id + 1)

/-- Two `with`-blocks exclude each other exactly when they acquire the
same lock object. -/
def locks_exclude (lock1 lock2 : Nat) : Bool := lock1 == lock2

/-- The existence check a dispatch performs before calling the network
(`get_patient_by_id` and the `patient_zip_files.get` lookup in
`upload_patient_data`). -/
def dispatch_passes_existence_check (s : SysState) (patient_id : String) : Bool :=
  (get_patient_by_id s.patient_queue patient_id).isSome
    && (lookupA s.patient_zip_files patient_id).isSome


/-! ## Association-list and queue lemmas -/

theorem lookupA_nil {α : Type} (k : String) : lookupA ([] : List (String × α)) k = none := rfl

theorem lookupA_cons {α : Type} (e : String × α) (rest : List (String × α)) (k : String) :
    lookupA (e :: rest) k = if e.1 = k then some e.2 else lookupA rest k := rfl

theorem updA_cons {α : Type} (e : String × α) (rest : List (String × α)) (k : String)
    (f : α → α) :
    updA (e :: rest) k f = (if e.1 = k then (e.1, f e.2) else e) :: updA rest k f := rfl

theorem setA_nil {α : Type} (k : String) (v : α) : setA ([] : List (String × α)) k v = [(k, v)] :=
  rfl

theorem setA_cons {α : Type} (e : String × α) (rest : List (String × α)) (k : String) (v : α) :
    setA (e :: rest) k v = if e.1 = k then (k, v) :: rest else e :: setA rest k v := rfl

theorem lookupA_updA_self {α : Type} (l : List (String × α)) (k : String) (f : α → α) :
    lookupA (updA l k f) k = (lookupA l k).map f := by
  induction l with
  | nil => rfl
  | cons e rest ih =>
    by_cases h : e.1 = k
    · simp [updA_cons, lookupA_cons, h]
    · simp [updA_cons, lookupA_cons, h, ih]

theorem lookupA_updA_ne {α : Type} (l : List (String × α)) {k k2 : String} (f : α → α)
    (h : k2 ≠ k) : lookupA (updA l k f) k2 = lookupA l k2 := by
  induction l with
  | nil => rfl
  | cons e rest ih =>
    by_cases he : e.1 = k
    · simp [updA_cons, lookupA_cons, he, Ne.symm h, ih]
    · by_cases he2 : e.1 = k2
      · simp [updA_cons, lookupA_cons, he, he2, h]
      · simp [updA_cons, lookupA_cons, he, he2, ih]

theorem lookupA_append {α : Type} (l1 l2 : List (String × α)) (k : String) :
    lookupA (l1 ++ l2) k =
      (match lookupA l1 k with
       | some v => some v
       | none => lookupA l2 k) := by
  induction l1 with
  | nil => simp [lookupA_nil]
  | cons e rest ih =>
    by_cases h : e.1 = k
    · simp [lookupA_cons, h]
    · simpa [lookupA_cons, h] using ih

theorem lookupA_setA_self {α : Type} (l : List (String × α)) (k : String) (v : α) :
    lookupA (setA l k v) k = some v := by
  induction l with
  | nil => simp [setA_nil, lookupA_cons]
  | cons e rest ih =>
    by_cases he : e.1 = k
    · simp [setA_cons, lookupA_cons, he]
    · simp [setA_cons, lookupA_cons, he, ih]

theorem lookupA_setA_ne {α : Type} (l : List (String × α)) {k k2 : String} (v : α)
    (h : k2 ≠ k) : lookupA (setA l k v) k2 = lookupA l k2 := by
  induction l with
  | nil => simp [setA_nil, lookupA_cons, lookupA_nil, Ne.symm h]
  | cons e rest ih =>
    by_cases he : e.1 = k
    · simp [setA_cons, lookupA_cons, he, Ne.symm h]
    · by_cases he2 : e.1 = k2
      · simp [setA_cons, lookupA_cons, he, he2, h]
      · simp [setA_cons, lookupA_cons, he, he2, ih]

theorem mem_setA {α : Type} {l : List (String × α)} {k : String} {v : α} {e : String × α}
    (h : e ∈ setA l k v) : e = (k, v) ∨ e ∈ l := by
  induction l with
  | nil =>
    rw [setA_nil] at h
    exact Or.inl (List.mem_singleton.mp h)
  | cons e2 rest ih =>
    by_cases he : e2.1 = k
    · rw [setA_cons, if_pos he] at h
      rcases List.mem_cons.mp h with h | h
      · exact Or.inl h
      · exact Or.inr (List.mem_cons_of_mem _ h)
    · rw [setA_cons, if_neg he] at h
      rcases List.mem_cons.mp h with h | h
      · exact Or.inr (List.mem_cons.mpr (Or.inl h))
      · rcases ih h with h2 | h2
        · exact Or.inl h2
        · exact Or.inr (List.mem_cons_of_mem _ h2)

theorem lookupA_eq_none_iff {α : Type} (l : List (String × α)) (k : String) :
    lookupA l k = none ↔ ∀ e ∈ l, e.1 ≠ k := by
  induction l with
  | nil => simp [lookupA_nil]
  | cons e rest ih =>
    by_cases h : e.1 = k
    · simp [lookupA_cons, h]
    · simp [lookupA_cons, h, ih]

theorem lookupA_mem {α : Type} {l : List (String × α)} {k : String} {v : α}
    (h : lookupA l k = some v) : (k, v) ∈ l := by
  induction l with
  | nil => simp [lookupA_nil] at h
  | cons e rest ih =>
    rcases e with ⟨a, b⟩
    by_cases he : a = k
    · subst he
      simp [lookupA_cons] at h
      subst h
      exact List.mem_cons_self _ _
    · simp [lookupA_cons, he] at h
      exact List.mem_cons_of_mem _ (ih h)

theorem lookupA_filter_ne_self {α : Type} (l : List (String × α)) (k : String) :
    lookupA (l.filter (fun e => decide (e.1 ≠ k))) k = none := by
  rw [lookupA_eq_none_iff]
  intro e he
  have h2 := (List.mem_filter.mp he).2
  simpa using h2

theorem lookupA_filter_ne_of_ne {α : Type} (l : List (String × α)) {k k2 : String}
    (h : k2 ≠ k) : lookupA (l.filter (fun e => decide (e.1 ≠ k))) k2 = lookupA l k2 := by
  induction l with
  | nil => rfl
  | cons e rest ih =>
    by_cases he : e.1 = k
    · rw [List.filter_cons, if_neg (by simp [he])]
      rw [lookupA_cons, if_neg (by rw [he]; exact Ne.symm h)]
      exact ih
    · rw [List.filter_cons, if_pos (by simp [he])]
      rw [lookupA_cons, lookupA_cons]
      by_cases he2 : e.1 = k2
      · rw [if_pos he2, if_pos he2]
      · rw [if_neg he2, if_neg he2]
        exact ih

theorem lookupA_filter_ne_none {α : Type} (l : List (String × α)) (k k2 : String)
    (h : lookupA l k2 = none) :
    lookupA (l.filter (fun e => decide (e.1 ≠ k))) k2 = none := by
  rw [lookupA_eq_none_iff] at h ⊢
  intro e he
  exact h e (List.mem_filter.mp he).1

theorem get_patient_by_id_nil (pid : String) : get_patient_by_id [] pid = none := rfl

theorem get_patient_by_id_cons (p : Patient) (rest : List Patient) (pid : String) :
    get_patient_by_id (p :: rest) pid =
      if p.patient_id = pid then some p else get_patient_by_id rest pid := rfl

theorem get_patient_by_id_updateFirstSession (q : List Patient) (pid : String)
    (f : Patient → Patient) (hf : ∀ p2, (f p2).patient_id = p2.patient_id) (p : Patient)
    (h : get_patient_by_id q pid = some p) :
    get_patient_by_id (updateFirstSession q pid f) pid = some (f p) := by
  induction q with
  | nil => simp [get_patient_by_id_nil] at h
  | cons p2 rest ih =>
    by_cases he : p2.patient_id = pid
    · rw [get_patient_by_id_cons, if_pos he] at h
      rw [updateFirstSession, if_pos he, get_patient_by_id_cons, if_pos (by rw [hf p2]; exact he)]
      rw [Option.some_inj.mp h]
    · rw [get_patient_by_id_cons, if_neg he] at h
      rw [updateFirstSession, if_neg he, get_patient_by_id_cons, if_neg he]
      exact ih h
/-- The number of queued sessions carrying a given patient id. -/
def sessionCount (q : List Patient) (pid : String) : Nat :=
  q.countP (fun p => decide (p.patient_id = pid))

theorem sessionCount_nil (pid : String) : sessionCount [] pid = 0 := rfl

theorem sessionCount_cons (p : Patient) (rest : List Patient) (pid : String) :
    sessionCount (p :: rest) pid
      = sessionCount rest pid + (if p.patient_id = pid then 1 else 0) := by
  simp [sessionCount, List.countP_cons]

theorem get_patient_by_id_eq_none_of_sessionCount_zero (q : List Patient) (pid : String)
    (h : sessionCount q pid = 0) : get_patient_by_id q pid = none := by
  induction q with
  | nil => rfl
  | cons p rest ih =>
    rw [sessionCount_cons] at h
    by_cases he : p.patient_id = pid
    · rw [if_pos he] at h
      omega
    · rw [if_neg he] at h
      rw [get_patient_by_id_cons, if_neg he]
      exact ih (by omega)

theorem get_patient_by_id_removeFirstSession (q : List Patient) (pid : String)
    (h : sessionCount q pid ≤ 1) :
    get_patient_by_id (removeFirstSession q pid) pid = none := by
  induction q with
  | nil => rfl
  | cons p rest ih =>
    rw [sessionCount_cons] at h
    by_cases he : p.patient_id = pid
    · rw [if_pos he] at h
      rw [removeFirstSession, if_pos he]
      exact get_patient_by_id_eq_none_of_sessionCount_zero rest pid (by omega)
    · rw [if_neg he] at h
      rw [removeFirstSession, if_neg he, get_patient_by_id_cons, if_neg he]
      exact ih (by omega)

theorem sessionCount_updateFirstSession (q : List Patient) (pid pid2 : String)
    (f : Patient → Patient) (hf : ∀ p, (f p).patient_id = p.patient_id) :
    sessionCount (updateFirstSession q pid f) pid2 = sessionCount q pid2 := by
  induction q with
  | nil => rfl
  | cons p rest ih =>
    by_cases he : p.patient_id = pid
    · rw [updateFirstSession, if_pos he, sessionCount_cons, sessionCount_cons, hf p]
    · rw [updateFirstSession, if_neg he, sessionCount_cons, sessionCount_cons, ih]

/-- Archive paths are in bijection with patient ids. -/
theorem zip_file_path_for_inj {a b : String} (h : zip_file_path_for a = zip_file_path_for b) :
    a = b := by
  unfold zip_file_path_for at h
  have hd := congrArg String.data h
  simp only [String.data_append, List.append_assoc] at hd
  have h2 := List.append_cancel_left hd
  have h3 := List.append_cancel_right h2
  ext1
  exact h3

/-! ## The persisted state-machine invariant -/

/-- The pairing invariant for one persisted row, at event boundaries
(between complete arrivals and complete monitor ticks): the row is either
`pending`/0, or `uploaded`/100 with no archive-handle entry and no archive
file on disk (the intermediate `uploading`/75 stage lives strictly inside
a dispatch). -/
def GoodRecord (zips : List (String × ZipInfo)) (disk : List String) (pid : String)
    (r : ProcRecord) : Prop :=
  (r.status = "pending" ∧ r.uploading_percentage = 0) ∨
  (r.status = "uploaded" ∧ r.uploading_percentage = 100 ∧
    lookupA zips pid = none ∧ zip_file_path_for pid ∉ disk)

/-- The system invariant: every persisted row satisfies `GoodRecord`, and
every archive-handle entry records the canonical per-patient path. -/
def Inv (s : SysState) : Prop :=
  (∀ pid r, lookupA s.procs pid = some r →
    GoodRecord s.patient_zip_files s.disk_zips pid r) ∧
  (∀ e ∈ s.patient_zip_files, e.2.path = zip_file_path_for e.1)

/-! ## Evaluation lemmas for the dispatcher -/

theorem upload_patient_data_no_session (s : SysState) (pid : String) (o : UploadOutcome)
    (hget : get_patient_by_id s.patient_queue pid = none) :
    upload_patient_data s pid o = s := by
  unfold upload_patient_data
  rw [hget]

theorem upload_patient_data_no_zip (s : SysState) (pid : String) (o : UploadOutcome)
    (hzip : lookupA s.patient_zip_files pid = none) :
    upload_patient_data s pid o = s := by
  unfold upload_patient_data
  cases hget : get_patient_by_id s.patient_queue pid with
  | none => rfl
  | some pd => rw [hzip]

theorem upload_patient_data_failure (s : SysState) (pid : String) (o : UploadOutcome)
    (pd : Patient) (zi : ZipInfo)
    (hget : get_patient_by_id s.patient_queue pid = some pd)
    (hzip : lookupA s.patient_zip_files pid = some zi)
    (hfail : dispatch_fails o = true) :
    upload_patient_data s pid o =
      { s with
        patient_queue := updateFirstSession s.patient_queue pid
          (fun p => { p with zip_file_path := some zi.path }),
        procs := update_proc_uploading_percentage
          (update_proc_status
            (update_proc_uploading_percentage
              (update_proc_status s.procs pid "uploading") pid 75) pid "pending") pid 0 } := by
  unfold upload_patient_data
  rw [hget, hzip]
  cases o with
  | localException => rfl
  | net r =>
    have hsend : send_to_server r = false := by
      simpa [dispatch_fails] using hfail
    simp only [hsend]
    rfl

theorem upload_patient_data_success (s : SysState) (pid : String) (r : NetResult)
    (pd : Patient) (zi : ZipInfo)
    (hget : get_patient_by_id s.patient_queue pid = some pd)
    (hzip : lookupA s.patient_zip_files pid = some zi)
    (hsend : send_to_server r = true) :
    upload_patient_data s pid (.net r) =
      { s with
        patient_queue := removeFirstSession
          (updateFirstSession s.patient_queue pid
            (fun p => { p with zip_file_path := some zi.path })) pid,
        procs := update_proc_uploading_percentage
          (update_proc_status
            (update_proc_uploading_percentage
              (update_proc_status s.procs pid "uploading") pid 75) pid "uploaded") pid 100,
        disk_zips := s.disk_zips.filter (fun p => decide (p ≠ zi.path)),
        patient_zip_files := s.patient_zip_files.filter (fun e => decide (e.1 ≠ pid)) } := by
  unfold upload_patient_data
  rw [hget, hzip]
  simp only [hsend]
  rfl

theorem lookupA_status_pct_chain (procs : List (String × ProcRecord)) (pid : String)
    (st1 : String) (pct1 : Nat) (st2 : String) (pct2 : Nat) :
    lookupA (update_proc_uploading_percentage (update_proc_status
      (update_proc_uploading_percentage (update_proc_status procs pid st1) pid pct1)
      pid st2) pid pct2) pid
      = (lookupA procs pid).map
          (fun r => { r with status := st2, uploading_percentage := pct2 }) := by
  cases hres : lookupA procs pid with
  | none =>
    simp [update_proc_status, update_proc_uploading_percentage, lookupA_updA_self, hres]
  | some r =>
    simp [update_proc_status, update_proc_uploading_percentage, lookupA_updA_self, hres]

theorem lookupA_status_pct_chain_ne (procs : List (String × ProcRecord)) {pid k : String}
    (st1 : String) (pct1 : Nat) (st2 : String) (pct2 : Nat) (h : k ≠ pid) :
    lookupA (update_proc_uploading_percentage (update_proc_status
      (update_proc_uploading_percentage (update_proc_status procs pid st1) pid pct1)
      pid st2) pid pct2) k = lookupA procs k := by
  unfold update_proc_status update_proc_uploading_percentage
  rw [lookupA_updA_ne _ _ h, lookupA_updA_ne _ _ h, lookupA_updA_ne _ _ h,
    lookupA_updA_ne _ _ h]

/-! ## Evaluation lemmas for insert_proc -/

theorem insert_proc_ok_lookup_ne {procs : List (String × ProcRecord)}
    {pid name st : String} {procs2 : List (String × ProcRecord)} {k : String} (hk : k ≠ pid)
    (hok : insert_proc procs pid name st = Except.ok procs2) :
    lookupA procs2 k = lookupA procs k := by
  unfold insert_proc at hok
  by_cases hemp : pid = "" ∨ name = ""
  · rw [if_pos hemp] at hok
    exact absurd hok (by simp)
  · rw [if_neg hemp] at hok
    cases hres : lookupA procs pid with
    | some r0 =>
      rw [hres] at hok
      have hval := Except.ok.inj hok
      rw [← hval, lookupA_updA_ne _ _ hk]
    | none =>
      rw [hres] at hok
      have hval := Except.ok.inj hok
      rw [← hval, lookupA_append]
      cases hres2 : lookupA procs k with
      | some v => rfl
      | none => simp [lookupA_cons, lookupA_nil, Ne.symm hk]

theorem insert_proc_ok_lookup_self_existing {procs : List (String × ProcRecord)}
    {pid name st : String} {procs2 : List (String × ProcRecord)} {r0 : ProcRecord}
    (hr0 : lookupA procs pid = some r0)
    (hok : insert_proc procs pid name st = Except.ok procs2) :
    lookupA procs2 pid = some { r0 with images := r0.images + 1 } := by
  unfold insert_proc at hok
  by_cases hemp : pid = "" ∨ name = ""
  · rw [if_pos hemp] at hok
    exact absurd hok (by simp)
  · rw [if_neg hemp, hr0] at hok
    have hval := Except.ok.inj hok
    rw [← hval, lookupA_updA_self, hr0]
    rfl

theorem insert_proc_ok_lookup_self_new {procs : List (String × ProcRecord)}
    {pid name st : String} {procs2 : List (String × ProcRecord)}
    (hr0 : lookupA procs pid = none)
    (hok : insert_proc procs pid name st = Except.ok procs2) :
    lookupA procs2 pid = some
      { patient_name := name, images := 1, status := st, uploading_percentage := 0 } := by
  unfold insert_proc at hok
  by_cases hemp : pid = "" ∨ name = ""
  · rw [if_pos hemp] at hok
    exact absurd hok (by simp)
  · rw [if_neg hemp, hr0] at hok
    have hval := Except.ok.inj hok
    rw [← hval, lookupA_append, hr0]
    simp [lookupA_cons]

theorem insert_proc_error_iff {procs : List (String × ProcRecord)} {pid name st : String} :
    (∃ e, insert_proc procs pid name st = Except.error e) ↔ (pid = "" ∨ name = "") := by
  unfold insert_proc
  by_cases hemp : pid = "" ∨ name = ""
  · simp [hemp]
  · rw [if_neg hemp]
    cases hres : lookupA procs pid with
    | some r0 => simp [hemp]
    | none => simp [hemp]

/-! ## Invariant preservation -/

theorem Inv_iff_components (s s2 : SysState) (hp : s2.procs = s.procs)
    (hz : s2.patient_zip_files = s.patient_zip_files) (hd : s2.disk_zips = s.disk_zips) :
    Inv s2 ↔ Inv s := by
  unfold Inv
  rw [hp, hz, hd]

theorem upload_patient_data_preserves_Inv (s : SysState) (pid : String) (o : UploadOutcome)
    (h : Inv s) : Inv (upload_patient_data s pid o) := by
  rcases h with ⟨h1, h2⟩
  cases hget : get_patient_by_id s.patient_queue pid with
  | none =>
    rw [upload_patient_data_no_session s pid o hget]
    exact ⟨h1, h2⟩
  | some pd =>
  cases hzip : lookupA s.patient_zip_files pid with
  | none =>
    rw [upload_patient_data_no_zip s pid o hzip]
    exact ⟨h1, h2⟩
  | some zi =>
  have hpath : zi.path = zip_file_path_for pid := h2 (pid, zi) (lookupA_mem hzip)
  by_cases hfail : dispatch_fails o = true
  · rw [upload_patient_data_failure s pid o pd zi hget hzip hfail]
    refine ⟨?_, h2⟩
    intro k rk hk
    by_cases hkp : k = pid
    · subst hkp
      rw [lookupA_status_pct_chain] at hk
      cases hres : lookupA s.procs k with
      | none =>
        rw [hres] at hk
        simp at hk
      | some r0 =>
        rw [hres] at hk
        simp only [Option.map_some'] at hk
        have hrk := Option.some_inj.mp hk
        exact Or.inl ⟨by rw [← hrk], by rw [← hrk]⟩
    · rw [lookupA_status_pct_chain_ne _ _ _ _ _ hkp] at hk
      exact h1 k rk hk
  · cases o with
    | localException => simp [dispatch_fails] at hfail
    | net r =>
      have hsend : send_to_server r = true := by
        simpa [dispatch_fails] using hfail
      rw [upload_patient_data_success s pid r pd zi hget hzip hsend]
      constructor
      · intro k rk hk
        by_cases hkp : k = pid
        · subst hkp
          rw [lookupA_status_pct_chain] at hk
          cases hres : lookupA s.procs k with
          | none =>
            rw [hres] at hk
            simp at hk
          | some r0 =>
            rw [hres] at hk
            simp only [Option.map_some'] at hk
            have hrk := Option.some_inj.mp hk
            refine Or.inr ⟨by rw [← hrk], by rw [← hrk], ?_, ?_⟩
            · exact lookupA_filter_ne_self _ _
            · intro hmem
              have hx := (List.mem_filter.mp hmem).2
              simp only [decide_eq_true_eq] at hx
              exact hx hpath.symm
        · rw [lookupA_status_pct_chain_ne _ _ _ _ _ hkp] at hk
          rcases h1 k rk hk with hl | hr
          · exact Or.inl hl
          · refine Or.inr ⟨hr.1, hr.2.1, ?_, ?_⟩
            · exact lookupA_filter_ne_none _ _ _ hr.2.2.1
            · intro hmem
              exact hr.2.2.2 (List.mem_filter.mp hmem).1
      · intro e he
        exact h2 e (List.mem_filter.mp he).1

theorem foldl_upload_preserves_Inv (pids : List String) (oracle : String → UploadOutcome) :
    ∀ s : SysState, Inv s →
      Inv (pids.foldl (fun st pid => upload_patient_data st pid (oracle pid)) s) := by
  induction pids with
  | nil => exact fun s h => h
  | cons p rest ih =>
    intro s h
    rw [List.foldl_cons]
    exact ih _ (upload_patient_data_preserves_Inv _ _ _ h)

theorem monitor_tick_preserves_Inv (s : SysState) (t : Nat) (oracle : String → UploadOutcome)
    (h : Inv s) : Inv (monitor_tick s t oracle) :=
  foldl_upload_preserves_Inv _ oracle s h

theorem append_to_zip_ok (s : SysState) (pid fp : String) (now : Nat) :
    append_to_zip s pid fp now true =
      { s with
        disk_zips :=
          if zip_file_path_for pid ∈ s.disk_zips then s.disk_zips
          else zip_file_path_for pid :: s.disk_zips,
        disk_files := s.disk_files.filter (fun p => decide (p ≠ fp)),
        patient_zip_files :=
          setA s.patient_zip_files pid { path := zip_file_path_for pid, last_update := now } } :=
  rfl

theorem append_to_zip_fail (s : SysState) (pid fp : String) (now : Nat) :
    append_to_zip s pid fp now false =
      { s with procs := update_proc_status s.procs pid "pending" } := rfl

theorem Inv_queue_update (s : SysState) (q : List Patient) (h : Inv s) :
    Inv { s with patient_queue := q } := h

theorem handle_store_preserves_Inv (s : SysState) (ds : Dataset) (now : Nat)
    (saveValid appendOk : Bool) (email : String) (h : Inv s)
    (hnup : ∀ r0, lookupA s.procs ds.patientID = some r0 → r0.status ≠ "uploaded") :
    Inv (handle_store s ds now saveValid appendOk email).2 := by
  rcases h with ⟨h1, h2⟩
  unfold handle_store
  by_cases hsv : saveValid = false
  · rw [if_pos hsv]
    exact ⟨h1, h2⟩
  · rw [if_neg hsv]
    dsimp only
    cases hins : insert_proc s.procs ds.patientID ds.patientName "pending" with
    | error e => exact ⟨h1, h2⟩
    | ok procs2 =>
      apply Inv_queue_update
      cases appendOk with
      | false =>
        rw [append_to_zip_fail]
        constructor
        · intro k rk hk
          by_cases hkp : k = ds.patientID
          · subst hkp
            rw [update_proc_status, lookupA_updA_self, update_proc_uploading_percentage,
              lookupA_updA_self] at hk
            cases hres2 : lookupA procs2 ds.patientID with
            | none =>
              rw [hres2] at hk
              simp at hk
            | some rI =>
              rw [hres2] at hk
              simp only [Option.map_some'] at hk
              have hrk := Option.some_inj.mp hk
              exact Or.inl ⟨by rw [← hrk], by rw [← hrk]⟩
          · rw [update_proc_status, lookupA_updA_ne _ _ hkp, update_proc_uploading_percentage,
              lookupA_updA_ne _ _ hkp, insert_proc_ok_lookup_ne hkp hins] at hk
            exact h1 k rk hk
        · exact h2
      | true =>
        rw [append_to_zip_ok]
        constructor
        · intro k rk hk
          by_cases hkp : k = ds.patientID
          · subst hkp
            rw [update_proc_uploading_percentage, lookupA_updA_self] at hk
            cases hres2 : lookupA procs2 ds.patientID with
            | none =>
              rw [hres2] at hk
              simp at hk
            | some rI =>
              rw [hres2] at hk
              simp only [Option.map_some'] at hk
              have hrk := Option.some_inj.mp hk
              have hstat : rI.status = "pending" := by
                cases hres : lookupA s.procs ds.patientID with
                | some r0 =>
                  have hsl := insert_proc_ok_lookup_self_existing hres hins
                  rw [hres2] at hsl
                  have hrI := Option.some_inj.mp hsl
                  rw [hrI]
                  rcases h1 ds.patientID r0 hres with hl | hr
                  · exact hl.1
                  · exact absurd hr.1 (hnup r0 hres)
                | none =>
                  have hsl := insert_proc_ok_lookup_self_new hres hins
                  rw [hres2] at hsl
                  have hrI := Option.some_inj.mp hsl
                  rw [hrI]
              refine Or.inl ⟨?_, by rw [← hrk]⟩
              rw [← hrk]
              exact hstat
          · rw [update_proc_uploading_percentage, lookupA_updA_ne _ _ hkp,
              insert_proc_ok_lookup_ne hkp hins] at hk
            rcases h1 k rk hk with hl | hr
            · exact Or.inl hl
            · refine Or.inr ⟨hr.1, hr.2.1, ?_, ?_⟩
              · rw [lookupA_setA_ne _ _ hkp]
                exact hr.2.2.1
              · intro hmem
                by_cases hd : zip_file_path_for ds.patientID ∈ s.disk_zips
                · rw [if_pos hd] at hmem
                  exact hr.2.2.2 hmem
                · rw [if_neg hd] at hmem
                  rcases List.mem_cons.mp hmem with heq | hmem2
                  · exact hkp (zip_file_path_for_inj heq)
                  · exact hr.2.2.2 hmem2
        · intro e he
          rcases mem_setA he with rfl | he2
          · rfl
          · exact h2 e he2

/-- Reachability through the pipeline events, restricted to traces in
which no file arrives for a patient whose persisted status is already
`"uploaded"`.  This proviso is exactly what the counterexample to the
unrestricted invariant forces: an arrival for an already-uploaded patient
increments `images` without resetting the status, then zeroes the
percentage and re-creates an archive. -/
inductive ReachableGood (technician_email : String) : SysState → Prop
  | init : ReachableGood technician_email initState
  | arrival {s : SysState} (ds : Dataset) (now : Nat) (saveValid appendOk : Bool) :
      ReachableGood technician_email s →
      (∀ r0, lookupA s.procs ds.patientID = some r0 → r0.status ≠ "uploaded") →
      ReachableGood technician_email
        (stepEvent technician_email s (Event.arrival ds now saveValid appendOk))
  | tick {s : SysState} (now : Nat) (oracle : String → UploadOutcome) :
      ReachableGood technician_email s →
      ReachableGood technician_email (stepEvent technician_email s (Event.tick now oracle))

theorem Inv_initState : Inv initState := by
  constructor
  · intro pid r hk
    simp [initState, lookupA_nil] at hk
  · intro e he
    simp [initState] at he

/-! ## Concrete fixtures for the scenarios below -/

/-- A concrete inbound dataset. -/
def dsEx : Dataset :=
  { patientID := "p1", patientName := "n", patientSex := "M", patientAge := "35",
    patientSize := "170", patientWeight := "70", patientPosition := "HFS",
    studyInstanceUID := "su", studyID := "st1", studyDate := "20241031",
    studyTime := "1200", studyDescription := "sd", modality := "CR",
    imageType := "ORIGINAL", protocolName := "pr", sopInstanceUID := "sop1" }

/-- A dataset whose PatientID is empty. -/
def dsEmpty : Dataset := { dsEx with patientID := "" }

/-- The state after one successfully handled arrival of `dsEx` at t = 0. -/
def sOne : SysState := stepEvent "tech" initState (Event.arrival dsEx 0 true true)

/-- The session dict sitting in `sOne`'s queue. -/
def pdEx : Patient :=
  { patient_id := "p1", patient_name := "n", patient_sex := "M", patient_age := "35",
    patient_size := "170", patient_weight := "70", patient_position := "HFS",
    study_instance_uid := "su", study_id := "st1", study_date := "20241031",
    study_time := "1200", study_description := "sd", modality := "CR",
    image_type := "ORIGINAL", protocol_name := "pr", technician_email := "tech",
    images := 1, updated_at := 0, zip_file_path := none }

/-- The zip-tracking entry sitting in `sOne`. -/
def ziEx : ZipInfo := { path := "zip_files/p1.zip", last_update := 0 }

/-- The persisted row sitting in `sOne`. -/
def r0Ex : ProcRecord :=
  { patient_name := "n", images := 1, status := "pending", uploading_percentage := 0 }

/-- Arrival, successful dispatch at t = 100, then another arrival for the
same patient at t = 200. -/
def traceReArrival : List Event :=
  [Event.arrival dsEx 0 true true,
   Event.tick 100 (fun _ => UploadOutcome.net (NetResult.response 200)),
   Event.arrival dsEx 200 true true]

/-! ## Per-arrival image-count lemma -/

theorem handle_store_numImages (s : SysState) (ds : Dataset) (now : Nat) (appendOk : Bool)
    (email : String) (hpid : ds.patientID ≠ "") (hname : ds.patientName ≠ "") :
    numImages (handle_store s ds now true appendOk email).2 ds.patientID
      = numImages s ds.patientID + 1 := by
  unfold handle_store
  rw [if_neg (by simp)]
  dsimp only
  cases hins : insert_proc s.procs ds.patientID ds.patientName "pending" with
  | error e =>
    exfalso
    rcases insert_proc_error_iff.mp ⟨e, hins⟩ with h | h
    · exact hpid h
    · exact hname h
  | ok procs2 =>
    dsimp only
    cases appendOk with
    | true =>
      rw [append_to_zip_ok]
      unfold numImages
      dsimp only
      rw [update_proc_uploading_percentage, lookupA_updA_self]
      cases hres : lookupA s.procs ds.patientID with
      | some r0 =>
        rw [insert_proc_ok_lookup_self_existing hres hins]
        rfl
      | none =>
        rw [insert_proc_ok_lookup_self_new hres hins]
        rfl
    | false =>
      rw [append_to_zip_fail]
      unfold numImages
      dsimp only
      rw [update_proc_status, lookupA_updA_self, update_proc_uploading_percentage,
        lookupA_updA_self]
      cases hres : lookupA s.procs ds.patientID with
      | some r0 =>
        rw [insert_proc_ok_lookup_self_existing hres hins]
        rfl
      | none =>
        rw [insert_proc_ok_lookup_self_new hres hins]
        rfl

/-! ## Claim C1 -/

/-- C1 counterexample: a single arrival whose archive append fails with an
I/O error still sets the persisted `images` count to 1 (the upsert runs
before the append, and `append_to_zip` swallows the error), although zero
files were successfully appended (no archive-handle entry and no archive
file exist).  The claim demands the count equal the number of successfully
appended files, i.e. 0. -/
theorem C1_counterexample :
    numImages (stepEvent "tech" initState (Event.arrival dsEx 0 true false)) "p1" = 1
    ∧ (stepEvent "tech" initState (Event.arrival dsEx 0 true false)).patient_zip_files = []
    ∧ (stepEvent "tech" initState (Event.arrival dsEx 0 true false)).disk_zips = [] :=
  ⟨rfl, rfl, rfl⟩

/-- C1 (amended): after any sequence of N handled arrivals for the same
patient id (valid save, non-empty id and name), the persisted `images`
count equals N regardless of whether the individual archive appends
succeeded or failed — `insert_proc` increments the count before
`append_to_zip` runs, and an append failure does not undo it. -/
theorem C1_images_count_equals_arrivals (email pid : String)
    (arrs : List (Dataset × Nat × Bool))
    (hall : ∀ a ∈ arrs, a.1.patientID = pid ∧ a.1.patientName ≠ "")
    (hpid : pid ≠ "") :
    numImages (runEvents email initState
      (arrs.map (fun a => Event.arrival a.1 a.2.1 true a.2.2))) pid = arrs.length := by
  have hgen : ∀ (l : List (Dataset × Nat × Bool)),
      (∀ a ∈ l, a.1.patientID = pid ∧ a.1.patientName ≠ "") →
      ∀ s : SysState,
        numImages (runEvents email s (l.map (fun a => Event.arrival a.1 a.2.1 true a.2.2))) pid
          = numImages s pid + l.length := by
    intro l
    induction l with
    | nil =>
      intro _ s
      simp [runEvents]
    | cons a rest ih =>
      intro hl s
      have ha := hl a (List.mem_cons_self _ _)
      have hrest := fun b hb => hl b (List.mem_cons_of_mem _ hb)
      have hstep : numImages (stepEvent email s (Event.arrival a.1 a.2.1 true a.2.2)) pid
          = numImages s pid + 1 := by
        have h0 := handle_store_numImages s a.1 a.2.1 a.2.2 email
          (by rw [ha.1]; exact hpid) ha.2
        rw [ha.1] at h0
        exact h0
      rw [List.map_cons]
      unfold runEvents
      rw [List.foldl_cons]
      have htail := ih hrest (stepEvent email s (Event.arrival a.1 a.2.1 true a.2.2))
      unfold runEvents at htail
      rw [htail, hstep]
      rw [List.length_cons]
      omega
  have := hgen arrs hall initState
  rw [this]
  simp [numImages, initState, lookupA_nil]

/-- C1 witness: two concrete arrivals for patient p1 (the second append
failing); the persisted count is 2. -/
theorem C1_images_count_equals_arrivals_witness :
    numImages (runEvents "tech" initState
      ([(dsEx, 0, true), (dsEx, 50, false)].map
        (fun a => Event.arrival a.1 a.2.1 true a.2.2))) "p1" = 2 :=
  C1_images_count_equals_arrivals "tech" "p1" [(dsEx, 0, true), (dsEx, 50, false)]
    (by decide) (by decide)

/-! ## Claim C2 -/

/-- C2: when a dispatch succeeds (HTTP 200), afterwards the persisted row
is `uploaded`/100, the session is gone from the queue, the zip-tracking
entry is gone, the archive file is deleted from disk, and no later monitor
tick selects this patient id again (it is absent from every idle
snapshot). -/
theorem C2_upload_success_cleanup (s : SysState) (pid : String) (pd : Patient) (zi : ZipInfo)
    (r0 : ProcRecord)
    (hget : get_patient_by_id s.patient_queue pid = some pd)
    (hzip : lookupA s.patient_zip_files pid = some zi)
    (hrec : lookupA s.procs pid = some r0)
    (hq : sessionCount s.patient_queue pid ≤ 1) :
    lookupA (upload_patient_data s pid (UploadOutcome.net (NetResult.response 200))).procs pid
        = some { r0 with status := "uploaded", uploading_percentage := 100 }
    ∧ get_patient_by_id
        (upload_patient_data s pid (UploadOutcome.net (NetResult.response 200))).patient_queue
        pid = none
    ∧ lookupA
        (upload_patient_data s pid
          (UploadOutcome.net (NetResult.response 200))).patient_zip_files pid = none
    ∧ zi.path ∉
        (upload_patient_data s pid (UploadOutcome.net (NetResult.response 200))).disk_zips
    ∧ ∀ t : Nat, pid ∉ idle_selected
        (upload_patient_data s pid
          (UploadOutcome.net (NetResult.response 200))).patient_zip_files t := by
  have heq := upload_patient_data_success s pid (NetResult.response 200) pd zi hget hzip
    (by decide)
  rw [heq]
  dsimp only
  refine ⟨?_, ?_, ?_, ?_, ?_⟩
  · rw [lookupA_status_pct_chain, hrec]
    rfl
  · apply get_patient_by_id_removeFirstSession
    rw [sessionCount_updateFirstSession]
    · exact hq
    · intro p2
      rfl
  · exact lookupA_filter_ne_self _ _
  · intro hmem
    have hx := (List.mem_filter.mp hmem).2
    simp at hx
  · intro t hsel
    unfold idle_selected at hsel
    rcases List.mem_map.mp hsel with ⟨e, he, hfst⟩
    have hin := (List.mem_filter.mp (List.mem_filter.mp he).1).2
    simp only [decide_eq_true_eq] at hin
    exact hin hfst

/-- C2 witness: the concrete one-arrival state `sOne` dispatched with a
200 response. -/
theorem C2_upload_success_cleanup_witness :
    lookupA (upload_patient_data sOne "p1"
        (UploadOutcome.net (NetResult.response 200))).procs "p1"
        = some { r0Ex with status := "uploaded", uploading_percentage := 100 }
    ∧ get_patient_by_id (upload_patient_data sOne "p1"
        (UploadOutcome.net (NetResult.response 200))).patient_queue "p1" = none
    ∧ lookupA (upload_patient_data sOne "p1"
        (UploadOutcome.net (NetResult.response 200))).patient_zip_files "p1" = none
    ∧ ziEx.path ∉ (upload_patient_data sOne "p1"
        (UploadOutcome.net (NetResult.response 200))).disk_zips
    ∧ ∀ t : Nat, "p1" ∉ idle_selected (upload_patient_data sOne "p1"
        (UploadOutcome.net (NetResult.response 200))).patient_zip_files t :=
  C2_upload_success_cleanup sOne "p1" pdEx ziEx r0Ex (by decide) (by decide) (by decide)
    (by decide)

/-! ## Claim C3 -/

/-- C3: on any failing dispatch outcome — a non-2xx (indeed any non-200)
response, a transport error, a timeout expiry, or a local exception — the
persisted row is reverted to `pending`/0, the zip-tracking entry, the
archive file and the session survive untouched, and a timeout expiry
yields literally the same post-state as the given failure outcome. -/
theorem C3_upload_failure_reverts_and_retains (s : SysState) (pid : String) (pd : Patient)
    (zi : ZipInfo) (r0 : ProcRecord) (o : UploadOutcome)
    (hget : get_patient_by_id s.patient_queue pid = some pd)
    (hzip : lookupA s.patient_zip_files pid = some zi)
    (hrec : lookupA s.procs pid = some r0)
    (hfail : dispatch_fails o = true) :
    lookupA (upload_patient_data s pid o).procs pid
        = some { r0 with status := "pending", uploading_percentage := 0 }
    ∧ lookupA (upload_patient_data s pid o).patient_zip_files pid = some zi
    ∧ (upload_patient_data s pid o).disk_zips = s.disk_zips
    ∧ (upload_patient_data s pid o).disk_files = s.disk_files
    ∧ get_patient_by_id (upload_patient_data s pid o).patient_queue pid
        = some { pd with zip_file_path := some zi.path }
    ∧ upload_patient_data s pid (UploadOutcome.net NetResult.timeoutExpired)
        = upload_patient_data s pid o := by
  have heq := upload_patient_data_failure s pid o pd zi hget hzip hfail
  have heqT := upload_patient_data_failure s pid (UploadOutcome.net NetResult.timeoutExpired)
    pd zi hget hzip (by decide)
  rw [heq]
  dsimp only
  refine ⟨?_, hzip, rfl, rfl, ?_, ?_⟩
  · rw [lookupA_status_pct_chain, hrec]
    rfl
  · exact get_patient_by_id_updateFirstSession s.patient_queue pid
      (fun p => { p with zip_file_path := some zi.path }) (fun p2 => rfl) pd hget
  · rw [heqT]

/-- C3 witness: the concrete one-arrival state `sOne` dispatched into a
timeout expiry. -/
theorem C3_upload_failure_reverts_and_retains_witness :
    lookupA (upload_patient_data sOne "p1"
        (UploadOutcome.net NetResult.timeoutExpired)).procs "p1"
        = some { r0Ex with status := "pending", uploading_percentage := 0 }
    ∧ lookupA (upload_patient_data sOne "p1"
        (UploadOutcome.net NetResult.timeoutExpired)).patient_zip_files "p1" = some ziEx
    ∧ (upload_patient_data sOne "p1"
        (UploadOutcome.net NetResult.timeoutExpired)).disk_zips = sOne.disk_zips
    ∧ (upload_patient_data sOne "p1"
        (UploadOutcome.net NetResult.timeoutExpired)).disk_files = sOne.disk_files
    ∧ get_patient_by_id (upload_patient_data sOne "p1"
        (UploadOutcome.net NetResult.timeoutExpired)).patient_queue "p1"
        = some { pdEx with zip_file_path := some ziEx.path }
    ∧ upload_patient_data sOne "p1" (UploadOutcome.net NetResult.timeoutExpired)
        = upload_patient_data sOne "p1" (UploadOutcome.net NetResult.timeoutExpired) :=
  C3_upload_failure_reverts_and_retains sOne "p1" pdEx ziEx r0Ex
    (UploadOutcome.net NetResult.timeoutExpired) (by decide) (by decide) (by decide)
    (by decide)

/-! ## Claim C4 -/

/-- C4 counterexample: 201 is a 2xx-class status, yet `send_to_server`
returns `False` for it (`raise_for_status` does not raise, but the success
test is `status == 200`), contradicting "every 2xx status yields
Success". -/
theorem C4_counterexample :
    (200 ≤ 201 ∧ 201 < 300) ∧ send_to_server (NetResult.response 201) = false := by
  decide

/-- C4 (amended): a dispatch is judged successful exactly when the remote
endpoint answers with HTTP status 200; every other status — including the
other 2xx-class codes — and every transport error or timeout yields
Failure. -/
theorem C4_success_iff_status_200 (code : Nat) :
    send_to_server (NetResult.response code) = true ↔ code = 200 := by
  unfold send_to_server
  dsimp only
  by_cases h : 400 ≤ code ∧ code < 600
  · rw [if_pos h]
    constructor
    · intro hf
      exact absurd hf (by simp)
    · intro h200
      omega
  · rw [if_neg h]
    simp

/-! ## Claim C5 -/

/-- C5 counterexample: files at t = 0 and t = 50 for patient p1; the
claim demands selection at t = 110 (since 110 − 50 ≥ 60), but the
monitor condition is strictly `> 60 seconds`, so the snapshot at t = 110
is empty; the patient is only selected from t = 111 on. -/
theorem C5_counterexample :
    60 ≤ 110 - 50
    ∧ idle_selected (runEvents "tech" initState
        [Event.arrival dsEx 0 true true, Event.arrival dsEx 50 true true]).patient_zip_files
        110 = []
    ∧ idle_selected (runEvents "tech" initState
        [Event.arrival dsEx 0 true true, Event.arrival dsEx 50 true true]).patient_zip_files
        111 = ["p1"] := by
  decide

/-- C5 (amended): the quiescence scan selects a patient exactly when some
tracking entry for that id satisfies `now - last_update > threshold`
(strictly more than 60 seconds idle), not `≥`. -/
theorem C5_selected_iff_strictly_idle (zips : List (String × ZipInfo)) (t : Nat)
    (pid : String) :
    pid ∈ idle_selected zips t
      ↔ ∃ e ∈ zips, e.1 = pid ∧ 60 < t - e.2.last_update := by
  unfold idle_selected
  constructor
  · intro h
    rcases List.mem_map.mp h with ⟨e, he, hfst⟩
    have hm := List.mem_filter.mp he
    exact ⟨e, hm.1, hfst, by simpa using hm.2⟩
  · rintro ⟨e, he, hfst, ht⟩
    exact List.mem_map.mpr ⟨e, List.mem_filter.mpr ⟨he, by simpa using ht⟩, hfst⟩

/-! ## Claim C6 -/

/-- C6 counterexample: arrival at t = 0, successful dispatch at t = 100,
then a new file for the same patient at t = 200.  The final event is a
file arrival, yet afterwards the persisted row reads `uploaded` with
percentage 0 (the pairing `uploaded` ↔ 100 is violated) while an
archive-handle entry and an archive file for the patient exist again
(violating "uploaded implies no archive"). -/
theorem C6_counterexample :
    lookupA (runEvents "tech" initState traceReArrival).procs "p1"
      = some { patient_name := "n", images := 2, status := "uploaded",
               uploading_percentage := 0 }
    ∧ lookupA (runEvents "tech" initState traceReArrival).patient_zip_files "p1"
      = some { path := "zip_files/p1.zip", last_update := 200 }
    ∧ zip_file_path_for "p1" ∈ (runEvents "tech" initState traceReArrival).disk_zips :=
  ⟨rfl, rfl, by decide⟩

/-- C6 (amended): along every event trace in which no file arrives for a
patient whose persisted status is already `uploaded`, every reachable
event-boundary state satisfies the state-machine invariant `Inv`: each
persisted row is either `pending`/0 or `uploaded`/100 (so `status` and
`uploading_percentage` always move together; the `uploading`/75 stage
lives strictly inside a dispatch), and every `uploaded` row has neither an
archive-handle entry nor an archive file on disk.  Without that proviso
the invariant fails, as the counterexample shows. -/
theorem C6_state_machine_invariant (technician_email : String) (s : SysState)
    (h : ReachableGood technician_email s) : Inv s := by
  induction h with
  | init => exact Inv_initState
  | arrival ds now saveValid appendOk hp hside ih =>
    exact handle_store_preserves_Inv _ ds now saveValid appendOk _ ih hside
  | tick now oracle hp ih => exact monitor_tick_preserves_Inv _ now oracle ih

/-- C6 witness: the invariant holds of the concrete state reached by one
handled arrival. -/
theorem C6_state_machine_invariant_witness :
    Inv (stepEvent "tech" initState (Event.arrival dsEx 0 true true)) :=
  C6_state_machine_invariant "tech" _
    (ReachableGood.arrival dsEx 0 true true ReachableGood.init
      (by intro r0 hr0; simp [initState, lookupA_nil] at hr0))

/-! ## Claim C7 -/

/-- C7 counterexample: an arrival whose archive append raises an I/O
error still makes `handle_store` return the success status 0x0000 — the
failure is not signalled to the caller (`append_to_zip` catches its own
exception and returns normally), contradicting "the accumulator signals
the failure to its caller (the file-arrival handler does not report
success for that file)". -/
theorem C7_counterexample :
    (handle_store initState dsEx 0 true false "tech").1 = 0x0000
    ∧ (0x0000 : Nat) ≠ 0xA702 :=
  ⟨rfl, by decide⟩

/-- C7 (amended): on an archive-append I/O failure the error is swallowed
rather than signalled: the handler still reports success (0x0000) for the
file, while the patient's persisted status is set to `pending`, the source
file is left in place on disk, and no archive-handle entry or archive file
is created by the failed append. -/
theorem C7_append_failure_behavior (s : SysState) (ds : Dataset) (now : Nat) (email : String)
    (hpid : ds.patientID ≠ "") (hname : ds.patientName ≠ "") :
    (handle_store s ds now true false email).1 = 0x0000
    ∧ Option.map ProcRecord.status
        (lookupA (handle_store s ds now true false email).2.procs ds.patientID)
        = some "pending"
    ∧ temp_file_path_for ds ∈ (handle_store s ds now true false email).2.disk_files
    ∧ (handle_store s ds now true false email).2.patient_zip_files = s.patient_zip_files
    ∧ (handle_store s ds now true false email).2.disk_zips = s.disk_zips := by
  unfold handle_store
  rw [if_neg (by simp)]
  dsimp only
  cases hins : insert_proc s.procs ds.patientID ds.patientName "pending" with
  | error e =>
    exfalso
    rcases insert_proc_error_iff.mp ⟨e, hins⟩ with h | h
    · exact hpid h
    · exact hname h
  | ok procs2 =>
    dsimp only
    rw [append_to_zip_fail]
    refine ⟨rfl, ?_, ?_, rfl, rfl⟩
    · rw [update_proc_status, lookupA_updA_self, update_proc_uploading_percentage,
        lookupA_updA_self]
      cases hres : lookupA s.procs ds.patientID with
      | some r0 =>
        rw [insert_proc_ok_lookup_self_existing hres hins]
        rfl
      | none =>
        rw [insert_proc_ok_lookup_self_new hres hins]
        rfl
    · by_cases hd : temp_file_path_for ds ∈ s.disk_files
      · rw [if_pos hd]
        exact hd
      · rw [if_neg hd]
        exact List.mem_cons_self _ _

/-- C7 witness: concrete failed append for `dsEx` on the boot state. -/
theorem C7_append_failure_behavior_witness :
    (handle_store initState dsEx 0 true false "tech").1 = 0x0000
    ∧ Option.map ProcRecord.status
        (lookupA (handle_store initState dsEx 0 true false "tech").2.procs dsEx.patientID)
        = some "pending"
    ∧ temp_file_path_for dsEx
        ∈ (handle_store initState dsEx 0 true false "tech").2.disk_files
    ∧ (handle_store initState dsEx 0 true false "tech").2.patient_zip_files
        = initState.patient_zip_files
    ∧ (handle_store initState dsEx 0 true false "tech").2.disk_zips = initState.disk_zips :=
  C7_append_failure_behavior initState dsEx 0 "tech" (by decide) (by decide)

/-! ## Claim C8 -/

/-- C8 counterexample: run an arrival, a successful dispatch, then a new
arrival for the same patient.  The final event is a file receipt, yet the
persisted status reads `uploaded`, not `pending` — `insert_proc` only
increments `images` for an existing row and never resets its status. -/
theorem C8_counterexample :
    Option.map ProcRecord.status
      (lookupA (runEvents "tech" initState traceReArrival).procs "p1") = some "uploaded"
    ∧ Option.map ProcRecord.status
      (lookupA (runEvents "tech" initState traceReArrival).procs "p1") ≠ some "pending" :=
  ⟨rfl, by decide⟩

/-- C8 (amended): the durable upsert triggered by a file arrival creates
the row with status `pending` only when no row for the patient exists; for
an existing row it only increments `images` and leaves the status exactly
as it was (shown here with a successful append, which does not touch the
status either). -/
theorem C8_upsert_status_behavior (s : SysState) (ds : Dataset) (now : Nat) (email : String)
    (hpid : ds.patientID ≠ "") (hname : ds.patientName ≠ "") :
    (lookupA s.procs ds.patientID = none →
      Option.map ProcRecord.status
        (lookupA (handle_store s ds now true true email).2.procs ds.patientID)
        = some "pending")
    ∧ (∀ r0, lookupA s.procs ds.patientID = some r0 →
      Option.map ProcRecord.status
        (lookupA (handle_store s ds now true true email).2.procs ds.patientID)
        = some r0.status) := by
  unfold handle_store
  rw [if_neg (by simp)]
  dsimp only
  cases hins : insert_proc s.procs ds.patientID ds.patientName "pending" with
  | error e =>
    exfalso
    rcases insert_proc_error_iff.mp ⟨e, hins⟩ with h | h
    · exact hpid h
    · exact hname h
  | ok procs2 =>
    dsimp only
    rw [append_to_zip_ok]
    constructor
    · intro hres
      rw [update_proc_uploading_percentage, lookupA_updA_self,
        insert_proc_ok_lookup_self_new hres hins]
      rfl
    · intro r0 hres
      rw [update_proc_uploading_percentage, lookupA_updA_self,
        insert_proc_ok_lookup_self_existing hres hins]
      rfl

/-- C8 witness: concrete arrival for `dsEx` on the boot state (the row is
created `pending`; the existing-row clause is instantiated as well). -/
theorem C8_upsert_status_behavior_witness :
    (lookupA initState.procs dsEx.patientID = none →
      Option.map ProcRecord.status
        (lookupA (handle_store initState dsEx 0 true true "tech").2.procs dsEx.patientID)
        = some "pending")
    ∧ (∀ r0, lookupA initState.procs dsEx.patientID = some r0 →
      Option.map ProcRecord.status
        (lookupA (handle_store initState dsEx 0 true true "tech").2.procs dsEx.patientID)
        = some r0.status) :=
  C8_upsert_status_behavior initState dsEx 0 "tech" (by decide) (by decide)

/-! ## Claim C9 -/

/-- C9 (code bug exhibit): the guard written `with threading.Lock():` in
`upload_patient_data` and `check_patient_updates` evaluates
`threading.Lock()` anew at every acquisition, so two critical sections
hold two distinct lock objects, which do not exclude each other; the
shared state is therefore unprotected, and the pre-network existence
check evaluates to true for the same patient in both of two overlapping
dispatches (each reading the same unmodified state). -/
theorem C9_fresh_lock_both_pass_check :
    locks_exclude (threading_Lock 0).1 (threading_Lock (threading_Lock 0).2).1 = false
    ∧ dispatch_passes_existence_check sOne "p1" = true
    ∧ dispatch_passes_existence_check sOne "p1" = true := by
  decide

/-! ## Claim C10 -/

/-- C10: for an inbound C-STORE dataset with an empty PatientID or empty
PatientName, the handler returns 0xA702 (the `insert_proc` upsert raises
`ValueError`, caught by the outer handler), while the DICOM file has
already been written to disk; nothing is appended to any archive, no
session is created, and the persisted table is untouched. -/
theorem C10_empty_identifiers_rejected (s : SysState) (ds : Dataset) (now : Nat)
    (appendOk : Bool) (email : String)
    (hempty : ds.patientID = "" ∨ ds.patientName = "") :
    (handle_store s ds now true appendOk email).1 = 0xA702
    ∧ (handle_store s ds now true appendOk email).2.procs = s.procs
    ∧ (handle_store s ds now true appendOk email).2.patient_zip_files = s.patient_zip_files
    ∧ (handle_store s ds now true appendOk email).2.disk_zips = s.disk_zips
    ∧ (handle_store s ds now true appendOk email).2.patient_queue = s.patient_queue
    ∧ temp_file_path_for ds ∈ (handle_store s ds now true appendOk email).2.disk_files := by
  unfold handle_store
  rw [if_neg (by simp)]
  dsimp only
  have herr : insert_proc s.procs ds.patientID ds.patientName "pending"
      = Except.error "Patient ID and name are required" := by
    unfold insert_proc
    rw [if_pos hempty]
  rw [herr]
  dsimp only
  refine ⟨rfl, rfl, rfl, rfl, rfl, ?_⟩
  by_cases hd : temp_file_path_for ds ∈ s.disk_files
  · rw [if_pos hd]
    exact hd
  · rw [if_neg hd]
    exact List.mem_cons_self _ _

/-- C10 witness: concrete dataset with empty PatientID on the boot
state. -/
theorem C10_empty_identifiers_rejected_witness :
    (handle_store initState dsEmpty 0 true true "tech").1 = 0xA702
    ∧ (handle_store initState dsEmpty 0 true true "tech").2.procs = initState.procs
    ∧ (handle_store initState dsEmpty 0 true true "tech").2.patient_zip_files
        = initState.patient_zip_files
    ∧ (handle_store initState dsEmpty 0 true true "tech").2.disk_zips = initState.disk_zips
    ∧ (handle_store initState dsEmpty 0 true true "tech").2.patient_queue
        = initState.patient_queue
    ∧ temp_file_path_for dsEmpty
        ∈ (handle_store initState dsEmpty 0 true true "tech").2.disk_files :=
  C10_empty_identifiers_rejected initState dsEmpty 0 true "tech" (Or.inl rfl)

end Radiolink
